import Mathlib

/-!
Verification of the pml module loader (`src/pml.js`) against its
natural-language specification.

The development shallowly embeds the loader's core:

* a JavaScript value model `Pml.Value` with JS truthiness (`Pml.truthy`)
  and the `||` operator (`Pml.jsOr`), enough for the loader's
  argument-shifting and registry checks;
* the string algorithms of `pml.js`: the dirname extraction of
  `define` (line 56, regex to the final slash) and
  `_resolveRelativeId` (lines 172-194), implemented on `List Char`
  with structural recursion so every theorem can evaluate by `decide`;
* the dependency fan-in state machine of `_runFactory` (lines
  129-164): `Pml.RFState` is the closure state
  (`unresolvedDependencies`, `modules`, `requireError`) together with a
  log of completion-callback invocations, and `Pml.rfStep` is one
  invocation of the per-dependency callback;
* `_require` (lines 203-227), split into the synchronous outcome
  `Pml.requireCall` and the continuation `Pml.requireAfterLoad` that
  runs when `loadScript` completes;
* a composite system model `Pml.Sys` / `Pml.defineCall` /
  `Pml.settleEvent` for whole-`define` executions, in which the
  asynchronous settlement of each pending dependency is an explicit
  event.

Factories are modelled by tokens (`Value.func k`) interpreted by an
environment `funcs : Nat → List Value → Value`; the execution-context
inspector is modelled by passing its result (`inferredId`) as an
argument, mirroring `_inferModuleId()` having succeeded.
-/

deriving instance DecidableEq for Except

namespace Pml

/-- JavaScript values, as far as the loader inspects them: `typeof`
checks (string / array / function), truthiness, and structured data for
exports. Functions are opaque tokens resolved by a `funcs` environment;
numbers are `Int` (no NaN arises in the loader's own logic).  Arrays
and objects carry string elements: the loader only ever constructs or
inspects arrays of dependency-id strings and the two synthesized
objects (`exports` = `obj []`, `module` = `obj [("id", …)]`), whose
fields are strings. -/
inductive Value where
  | undefined : Value
  | null : Value
  | bool : Bool → Value
  | num : Int → Value
  | str : String → Value
  | arr : List String → Value
  | obj : List (String × String) → Value
  | func : Nat → Value
deriving DecidableEq, Repr

/-- JavaScript truthiness: `undefined`, `null`, `false`, `0` and `""`
are falsy; objects, arrays and functions are always truthy. -/
def truthy : Value → Bool
  | Value.undefined => false
  | Value.null => false
  | Value.bool b => b
  | Value.num n => n != 0
  | Value.str s => s != ""
  | Value.arr _ => true
  | Value.obj _ => true
  | Value.func _ => true

/-- JavaScript `a || b`. -/
def jsOr (a b : Value) : Value := if truthy a then a else b

/-- `Array.isArray`. -/
def isArray : Value → Bool
  | Value.arr _ => true
  | _ => false

/-- `typeof v === 'string'`. -/
def isStringV : Value → Bool
  | Value.str _ => true
  | _ => false

/-- `typeof v === 'function'`. -/
def isFunction : Value → Bool
  | Value.func _ => true
  | _ => false

/-- The errors the loader can raise.  `typeError` is the
`TypeError('Please use / as module path delimiters')` of line 47 (the
spec's InvalidIdentifierError); `alreadyDefined` the `Error` of line 51;
`notLoaded id requester` the `ReferenceError` of lines 220-221 (the
spec's DependencyNotLoadedError); `unboundIdentifier` a crash from
referencing an undeclared name (the `calback` typo on line 207);
`custom` stands for arbitrary errors supplied by dependency
settlements in traces. -/
inductive JsErr where
  | typeError : String → JsErr
  | alreadyDefined : String → JsErr
  | notLoaded : String → String → JsErr
  | unboundIdentifier : String → JsErr
  | custom : Nat → JsErr
deriving DecidableEq, Repr

/-! ## String algorithms -/

/-- JavaScript `s.split('/')`: always returns at least one (possibly
empty) segment, and empty segments between consecutive slashes. -/
def splitSlash : List Char → List (List Char)
  | [] => [[]]
  | c :: t =>
    match splitSlash t with
    | [] => [[c]]
    | seg :: rest => if c = '/' then [] :: seg :: rest else (c :: seg) :: rest

/-- `terms.join('/')`. -/
def joinSlash : List (List Char) → List Char
  | [] => []
  | [s] => s
  | s :: s2 :: rest => s ++ '/' :: joinSlash (s2 :: rest)

/-- Strip one leading `/` (the `^\/?` of the id regex on line 182). -/
def stripLeadSlash : List Char → List Char
  | '/' :: t => t
  | l => l

/-- Strip one trailing `/` (the lazy `(.*?)\/?$` tail of the regexes on
lines 177 and 182 leaves at most one final slash out of the group). -/
def stripTrailSlash (l : List Char) : List Char :=
  match l.getLast? with
  | some '/' => l.dropLast
  | _ => l

/-- The optional `scheme://authority/` group `([^\/]*\/\/[^\/]+\/)?` of
the base regex on line 177: it matches exactly when the input starts
with a run of non-slash characters, then `//`, then a nonempty run of
non-slash characters, then `/`.  Returns the matched group and the rest
of the input, or `("", input)` when the group does not match. -/
def schemeSplit (l : List Char) : List Char × List Char :=
  let a := l.takeWhile (fun c => c ≠ '/')
  match l.drop a.length with
  | '/' :: '/' :: rest2 =>
    let b := rest2.takeWhile (fun c => c ≠ '/')
    match b, rest2.drop b.length with
    | _ :: _, '/' :: tail => (a ++ '/' :: '/' :: b ++ ['/'], tail)
    | _, _ => ([], l)
  | _ => ([], l)

/-- `_resolveRelativeId(base, id)` (pml.js lines 172-194).  Ids not
starting with `.` are returned unchanged; otherwise the base is split
into an optional scheme prefix and slash-separated terms (dropping one
trailing slash, and producing no terms when the remaining path is
empty, since `''` is falsy on line 180), the id is split into terms
(dropping one leading and one trailing slash), and the id's terms are
folded over the base's: `.` is a no-op, `..` pops (a pop of an empty
array is a no-op, like `Array.prototype.pop`), anything else is
appended. -/
def resolveRelativeId (base id : String) : String :=
  if id.data.head? ≠ some '.' then id
  else
    let ss := schemeSplit base.data
    let m2 := stripTrailSlash ss.2
    let terms := if m2 = [] then [] else splitSlash m2
    let idTerms := splitSlash (stripTrailSlash (stripLeadSlash id.data))
    let finalTerms := idTerms.foldl
      (fun ts t =>
        if t = ['.'] then ts
        else if t = ['.', '.'] then ts.dropLast
        else ts ++ [t]) terms
    String.mk (ss.1 ++ joinSlash finalTerms)

/-- `inferredId.match(/^(.*?)[^\/]*$/)[1]` (pml.js line 56): everything
up to and including the final `/`, or `""` when there is no slash. -/
def dirname (s : String) : String :=
  String.mk ((s.data.reverse.dropWhile (fun c => c ≠ '/')).reverse)

/-- The resolution a defining unit's dependency actually undergoes:
`define` derives the base by `dirname` of the unit's inferred location
(line 56) and `_runFactory` then applies `_resolveRelativeId` to it
(line 142). -/
def resolveAgainstLocation (location dep : String) : String :=
  resolveRelativeId (dirname location) dep

/-- `id.indexOf('\\') !== -1` (pml.js line 46). -/
def hasBackslash (s : String) : Bool := s.data.contains '\\'

/-! ## Registry -/

/-- The `_modules` object: an association list where assignment
prepends, so the most recent write shadows earlier ones (JavaScript
property assignment overwrites). -/
abbrev Registry := List (String × Value)

/-- Property read `_modules[id]` as an `Option` (key presence plus
value). -/
def rlookup : Registry → String → Option Value
  | [], _ => none
  | (k, v) :: t, id => if k = id then some v else rlookup t id

/-! ## The `_runFactory` fan-in state machine (pml.js lines 129-164) -/

/-- The closure state of `_runFactory` for a factory with dependencies,
plus an observation log.  `unresolved` is `unresolvedDependencies`
(an `Int`, since the JavaScript counter is not clamped at zero),
`modules` the `modules` array (a JavaScript array read at an unassigned
index yields `undefined`, so it is materialised at full length with
`undefined` holes), `requireError` the first-failure flag.  `calls`
records every invocation of the completion callback: `Except.error e`
for `callback(error)`, and `Except.ok args` for
`callback(undefined, factory.apply(null, modules))` where `args` is the
`modules` array the factory is applied to — so an `Except.ok` entry is
recorded exactly when the factory is invoked. -/
structure RFState where
  unresolved : Int
  modules : List Value
  requireError : Bool
  calls : List (Except JsErr (List Value))
deriving DecidableEq, Repr

/-- State at the start of the `dependencies.forEach` loop:
`unresolvedDependencies = dependencies.length`, empty modules array, no
error, callback not yet called. -/
def rfInit (n : Nat) : RFState :=
  { unresolved := (n : Int), modules := List.replicate n Value.undefined,
    requireError := false, calls := [] }

/-- One invocation of the per-dependency callback (pml.js lines
145-162) for dependency index `i`, whose `_require` request settled
with `settle i`: if an error was already recorded, do nothing;
on an error, set the flag and call the completion callback with it;
on success, write the export into the declared slot, decrement the
counter, and when it reaches zero invoke the factory on the modules
array. -/
def rfStep (settle : Nat → Except JsErr Value) (s : RFState) (i : Nat) : RFState :=
  if s.requireError then s
  else
    match settle i with
    | Except.error e =>
      { s with requireError := true, calls := s.calls ++ [Except.error e] }
    | Except.ok v =>
      let ms := s.modules.set i v
      let u := s.unresolved - 1
      { s with modules := ms, unresolved := u,
               calls := if u = 0 then s.calls ++ [Except.ok ms] else s.calls }

/-- Run the fan-in over a settlement schedule: `order` lists the
dependency indices in the order in which their `_require` callbacks
fire (the external loader may complete them in any order). -/
def rfRun (settle : Nat → Except JsErr Value) (n : Nat) (order : List Nat) : RFState :=
  order.foldl (rfStep settle) (rfInit n)

/-- The completion-callback invocations of `_runFactory` for a callable
factory with `n` dependencies whose settlements arrive in `order`:
with zero dependencies the factory is applied to `[]` synchronously
(pml.js lines 134-136), otherwise the fan-in runs. -/
def runFactoryCalls (settle : Nat → Except JsErr Value) (n : Nat)
    (order : List Nat) : List (Except JsErr (List Value)) :=
  if n = 0 then [Except.ok ([] : List Value)] else (rfRun settle n order).calls

/-! ## `_require` (pml.js lines 203-227) -/

/-- The synchronous outcome of a `_require(id, moduleId, callback)`
call. -/
inductive RequireOutcome where
  /-- The callback was invoked synchronously with `(undefined, v)`. -/
  | settled : Value → RequireOutcome
  /-- `loadScript(src, …)` was issued; the callback fires later, per
  `requireAfterLoad`. -/
  | delegated : String → RequireOutcome
  /-- The call crashed by referencing an undeclared identifier. -/
  | crash : String → RequireOutcome
deriving DecidableEq, Repr

/-- `_require` (pml.js lines 203-227).  `exports` settles with a fresh
empty object; the `require` branch executes `calback(undefined, this)`
— `calback` is an unbound identifier, so the branch throws a
`ReferenceError` instead of calling the callback; `module` settles with
`{ id: moduleId }`; an id that is a key of `_modules` settles with its
export; otherwise the load is delegated to
`loadScript('components/jquery/dist/' + id + '.js', …)`. -/
def requireCall (ρ : Registry) (id moduleId : String) : RequireOutcome :=
  if id = "exports" then RequireOutcome.settled (Value.obj [])
  else if id = "require" then RequireOutcome.crash "calback is not defined"
  else if id = "module" then RequireOutcome.settled (Value.obj [("id", moduleId)])
  else
    match rlookup ρ id with
    | none => RequireOutcome.delegated ("components/jquery/dist/" ++ id ++ ".js")
    | some v => RequireOutcome.settled v

/-- The continuation run when `loadScript` completes (pml.js lines
214-223), against the registry `ρ` at that time: `if (_modules[id])` —
a truthiness test of the property read, `undefined` when the key is
absent — settles with the export, else with the `ReferenceError`
`'The module "id" has not been loaded for moduleId'`. -/
def requireAfterLoad (ρ : Registry) (id moduleId : String) : Except JsErr Value :=
  let v := (rlookup ρ id).getD Value.undefined
  if truthy v then Except.ok v else Except.error (JsErr.notLoaded id moduleId)

/-! ## The composite `define` system (pml.js lines 32-66) -/

/-- The three positional arguments of `define(id, dependencies,
factory)`; an omitted argument is `Value.undefined`. -/
structure DefineArgs where
  id : Value
  deps : Value
  fac : Value
deriving DecidableEq, Repr

/-- `factory = factory || dependencies || id` (pml.js line 33). -/
def normFactory (args : DefineArgs) : Value :=
  jsOr (jsOr args.fac args.deps) args.id

/-- Lines 34-37: if `dependencies` is not an array, use `id` when `id`
is an array, else `[]`. -/
def normDeps (args : DefineArgs) : List String :=
  match args.deps with
  | Value.arr l => l
  | _ =>
    match args.id with
    | Value.arr l => l
    | _ => []

/-- Lines 40-43: the id is the first argument when it is a string,
otherwise the inferred id. -/
def effectiveId (args : DefineArgs) (inferredId : String) : String :=
  match args.id with
  | Value.str s => s
  | _ => inferredId

/-- Line 141-143: reserved dependency ids bypass `_resolveRelativeId`,
all others are relativized against the definer's base. -/
def resolveDep (base s : String) : String :=
  if s = "exports" || s = "require" || s = "module" then s
  else resolveRelativeId base s

/-- The token of a function value (only read under an `isFunction`
guard, mirroring the `typeof factory === 'function'` paths). -/
def funcTok : Value → Nat
  | Value.func k => k
  | _ => 0

/-- A `define` call whose factory has unsettled dependencies: the
closure of `_runFactory` still waiting for `_require` callbacks.
`facFn` is the factory's token and `resolvedDeps` the dependency ids
after relativization (the ids `_require` was called with). -/
structure Pending where
  id : String
  facFn : Nat
  resolvedDeps : List String
  st : RFState
deriving DecidableEq, Repr

/-- The whole-loader state: the `_modules` registry, the in-flight
`define` calls, and every error thrown so far (synchronous `define`
throws, and the `throw error` of the completion callback on line 60). -/
structure Sys where
  modules : Registry
  pendings : List Pending
  thrown : List JsErr
deriving DecidableEq, Repr

def emptySys : Sys := { modules := [], pendings := [], thrown := [] }

/-- One `define(args)` call (pml.js lines 32-66) by a unit whose
inferred location is `inferredId`, under factory environment `funcs`:
normalise the arguments, validate the id (backslash, then
already-defined — both against the registry as it is *now*), then run
`_runFactory`: a non-callable factory is committed directly; a callable
factory with zero dependencies is applied and its result committed; a
callable factory with dependencies leaves a `Pending` whose
dependencies have been relativized against `dirname inferredId`.
Commits prepend to the registry (JavaScript assignment, overwriting on
read). -/
def defineCall (funcs : Nat → List Value → Value) (sys : Sys)
    (inferredId : String) (args : DefineArgs) : Sys :=
  let fac := normFactory args
  let deps := normDeps args
  let id := effectiveId args inferredId
  if hasBackslash id then
    { sys with thrown := sys.thrown ++ [JsErr.typeError "Please use / as module path delimiters"] }
  else if (rlookup sys.modules id).isSome then
    { sys with thrown := sys.thrown ++ [JsErr.alreadyDefined id] }
  else if ¬ isFunction fac then
    { sys with modules := (id, fac) :: sys.modules }
  else if deps.length = 0 then
    { sys with modules := (id, funcs (funcTok fac) []) :: sys.modules }
  else
    { sys with pendings := sys.pendings ++
        [{ id := id, facFn := funcTok fac,
           resolvedDeps := deps.map (resolveDep (dirname inferredId)),
           st := rfInit deps.length }] }

/-- Asynchronous settlement of dependency `depIdx` of the pending
define `pIdx` with `outcome`: run one `rfStep`; if that step invoked
the completion callback, the callback of lines 58-65 either rethrows
the error or commits `factory.apply(null, modules)` under the pending
id. -/
def settleEvent (funcs : Nat → List Value → Value) (sys : Sys)
    (pIdx depIdx : Nat) (outcome : Except JsErr Value) : Sys :=
  match sys.pendings[pIdx]? with
  | none => sys
  | some p =>
    let st := rfStep (fun _ => outcome) p.st depIdx
    let sys := { sys with pendings := sys.pendings.set pIdx { p with st := st } }
    match st.calls.drop p.st.calls.length with
    | [Except.error e] => { sys with thrown := sys.thrown ++ [e] }
    | [Except.ok args] =>
      { sys with modules := (p.id, funcs p.facFn args) :: sys.modules }
    | _ => sys

/-! ## Fan-in lemmas -/

/-- Once the failure flag is set, every further settlement is silently
discarded: the closure state never changes again. -/
theorem foldl_frozen (settle : Nat → Except JsErr Value) :
    ∀ (l : List Nat) (s : RFState), s.requireError = true →
    l.foldl (rfStep settle) s = s := by
  intro l
  induction l with
  | nil => intro s _; rfl
  | cons i t ih =>
    intro s h
    have hstep : rfStep settle s i = s := by simp [rfStep, h]
    simp only [List.foldl_cons, hstep]
    exact ih s h

/-- Processing a run of successful settlements strictly shorter than
the outstanding count decrements the counter without invoking the
completion callback. -/
theorem foldl_ok (settle : Nat → Except JsErr Value) :
    ∀ (l : List Nat) (s : RFState), s.requireError = false →
    (∀ i ∈ l, ∃ v, settle i = Except.ok v) →
    ((l.length : Int) < s.unresolved) →
    (l.foldl (rfStep settle) s).requireError = false ∧
    (l.foldl (rfStep settle) s).unresolved = s.unresolved - l.length ∧
    (l.foldl (rfStep settle) s).calls = s.calls := by
  intro l
  induction l with
  | nil => intro s h _ _; exact ⟨h, by simp, rfl⟩
  | cons i t ih =>
    intro s h hok hlen
    obtain ⟨v, hv⟩ := hok i (List.mem_cons_self i t)
    have hlen' : (t.length : Int) + 1 < s.unresolved := by
      have : ((i :: t).length : Int) = (t.length : Int) + 1 := by simp
      omega
    have hu : ¬ (s.unresolved - 1 = 0) := by omega
    have hstep : rfStep settle s i =
        { s with modules := s.modules.set i v, unresolved := s.unresolved - 1 } := by
      simp [rfStep, h, hv, hu]
    simp only [List.foldl_cons, hstep]
    have hrec := ih { s with modules := s.modules.set i v, unresolved := s.unresolved - 1 }
      h (fun x hx => hok x (List.mem_cons_of_mem i hx)) (by simpa using by omega)
    refine ⟨hrec.1, ?_, hrec.2.2⟩
    rw [hrec.2.1]
    show s.unresolved - 1 - (t.length : Int) = s.unresolved - ((i :: t).length : Int)
    simp only [List.length_cons]
    push_cast
    omega

/-- Settlement function for the concrete first-failure scenario of the
spec: two dependencies, the first (`./x`, index 0) loads successfully,
the second (`./y`, index 1) fails. -/
def settleXY : Nat → Except JsErr Value :=
  fun i => if i = 1 then Except.error (JsErr.custom 5) else Except.ok (Value.num 1)

/-- Claim C1: for a define call with a non-empty dependency list, when
the dependency settlements arrive as an ok-prefix `pre`, then a first
error `j`, then arbitrary further settlements `post` (each dependency
settles at most once, hence `(pre ++ [j]).Nodup`), the completion
callback of `_runFactory` is invoked exactly once, with the first
error; no `Except.ok` entry appears, so the factory is never invoked,
and every settlement after the failure — error or success — is
discarded. -/
theorem first_failure_wins (settle : Nat → Except JsErr Value) (n : Nat)
    (pre post : List Nat) (j : Nat) (e : JsErr)
    (hpre : ∀ i ∈ pre, i < n) (hj : j < n)
    (hnd : (pre ++ [j]).Nodup)
    (hok : ∀ i ∈ pre, ∃ v, settle i = Except.ok v)
    (herr : settle j = Except.error e) :
    (rfRun settle n (pre ++ j :: post)).calls = [Except.error e] := by
  have hlen : pre.length + 1 ≤ n := by
    have hsub : (pre ++ [j]) ⊆ List.range n := by
      intro x hx
      rcases List.mem_append.1 hx with h | h
      · exact List.mem_range.2 (hpre x h)
      · simp only [List.mem_singleton] at h
        subst h
        exact List.mem_range.2 hj
    have hle := (hnd.subperm hsub).length_le
    simpa using hle
  have h1 : (rfRun settle n pre).requireError = false ∧
      (rfRun settle n pre).unresolved = (rfInit n).unresolved - pre.length ∧
      (rfRun settle n pre).calls = (rfInit n).calls :=
    foldl_ok settle pre (rfInit n) rfl hok
      (by show (pre.length : Int) < (n : Int); omega)
  have hsplit : rfRun settle n (pre ++ j :: post) =
      post.foldl (rfStep settle) (rfStep settle (rfRun settle n pre) j) := by
    rw [rfRun, rfRun, List.foldl_append, List.foldl_cons]
  have hstep : rfStep settle (rfRun settle n pre) j =
      { (rfRun settle n pre) with
          requireError := true,
          calls := (rfRun settle n pre).calls ++ [Except.error e] } := by
    simp only [rfStep, h1.1, herr]
    simp
  rw [hsplit, hstep, foldl_frozen settle post _ rfl]
  show (rfRun settle n pre).calls ++ [Except.error e] = [Except.error e]
  rw [h1.2.2]
  rfl

/-- Witness for C1: two dependencies where index 1 fails first and
index 0's success callback fires after the failure — exactly one error
surfaces and the factory is never invoked. -/
theorem first_failure_wins_witness :
    (rfRun settleXY 2 ([] ++ 1 :: [0])).calls = [Except.error (JsErr.custom 5)] :=
  first_failure_wins settleXY 2 [] [0] 1 (JsErr.custom 5)
    (by intro i hi; cases hi) (by decide) (by decide)
    (by intro i hi; cases hi) rfl

/-- A run of successful settlements fills exactly the declared slots of
the settled indices, independent of the order in which they arrive. -/
theorem foldl_ok_modules (settle : Nat → Except JsErr Value) (n : Nat) (v : Nat → Value)
    (hsettle : ∀ i, i < n → settle i = Except.ok (v i)) :
    ∀ (p : List Nat), (∀ i ∈ p, i < n) → p.length < n →
    (rfRun settle n p).requireError = false ∧
    (rfRun settle n p).unresolved = (n : Int) - p.length ∧
    (rfRun settle n p).calls = [] ∧
    (rfRun settle n p).modules =
      (List.range n).map (fun i => if i ∈ p then v i else Value.undefined) := by
  intro p
  induction p using List.reverseRecOn with
  | nil =>
    intro _ _
    refine ⟨rfl, by simp [rfRun, rfInit], rfl, ?_⟩
    show List.replicate n Value.undefined = _
    simp [List.map_const']
  | append_singleton p i ih =>
    intro hmem hlen
    simp only [List.length_append, List.length_singleton] at hlen
    have hi : i < n := hmem i (by simp)
    have hplen : p.length < n := by omega
    obtain ⟨hre, hu, hc, hm⟩ := ih (fun x hx => hmem x (by simp [hx])) hplen
    have hsplit : rfRun settle n (p ++ [i]) = rfStep settle (rfRun settle n p) i := by
      rw [rfRun, rfRun, List.foldl_append, List.foldl_cons, List.foldl_nil]
    have hunz : ¬ ((rfRun settle n p).unresolved - 1 = 0) := by
      rw [hu]
      omega
    have hstep : rfStep settle (rfRun settle n p) i =
        { (rfRun settle n p) with
            modules := (rfRun settle n p).modules.set i (v i),
            unresolved := (rfRun settle n p).unresolved - 1 } := by
      simp only [rfStep, hre, hsettle i hi, hunz]
      simp
    rw [hsplit, hstep]
    refine ⟨hre, ?_, hc, ?_⟩
    · show (rfRun settle n p).unresolved - 1 = (n : Int) - (p ++ [i]).length
      rw [hu]
      simp only [List.length_append, List.length_singleton]
      push_cast
      omega
    · show (rfRun settle n p).modules.set i (v i) = _
      rw [hm]
      apply List.ext_getElem
      · simp
      · intro k h1 h2
        simp only [List.length_set, List.length_map, List.length_range] at h1
        rw [List.getElem_set]
        by_cases hik : i = k
        · subst hik
          simp
        · rw [if_neg hik]
          simp only [List.getElem_map, List.getElem_range]
          have hne : ¬ k = i := fun h => hik h.symm
          simp [List.mem_append, hne]

/-- Claim C4: when every dependency settles successfully, in whatever
arrival order (any permutation of the declared indices — in particular
a later-declared dependency may settle before an earlier one), the
factory is invoked exactly once, applied to the dependency exports in
declared order. -/
theorem declaration_order_preserved (settle : Nat → Except JsErr Value) (n : Nat)
    (v : Nat → Value) (order : List Nat)
    (hperm : order.Perm (List.range n))
    (hok : ∀ i, i < n → settle i = Except.ok (v i)) :
    runFactoryCalls settle n order = [Except.ok ((List.range n).map v)] := by
  by_cases hn : n = 0
  · subst hn
    simp [runFactoryCalls]
  · have hlen : order.length = n := by simpa using hperm.length_eq
    rcases List.eq_nil_or_concat order with hnil | ⟨q, i, hqi⟩
    · rw [hnil] at hlen
      simp at hlen
      omega
    · rw [List.concat_eq_append] at hqi
      subst hqi
      have hmem : ∀ x ∈ q ++ [i], x < n := by
        intro x hx
        exact List.mem_range.1 (hperm.mem_iff.mp hx)
      have hi : i < n := hmem i (by simp)
      have hq : ∀ x ∈ q, x < n := fun x hx => hmem x (by simp [hx])
      have hqlen : q.length + 1 = n := by simpa using hlen
      obtain ⟨hre, hu, hc, hm⟩ := foldl_ok_modules settle n v hok q hq (by omega)
      have hsplit : rfRun settle n (q ++ [i]) = rfStep settle (rfRun settle n q) i := by
        rw [rfRun, rfRun, List.foldl_append, List.foldl_cons, List.foldl_nil]
      have huz : (rfRun settle n q).unresolved - 1 = 0 := by
        rw [hu]
        omega
      have hms : (rfRun settle n q).modules.set i (v i) = (List.range n).map v := by
        rw [hm]
        apply List.ext_getElem
        · simp
        · intro k h1 h2
          simp only [List.length_set, List.length_map, List.length_range] at h1
          rw [List.getElem_set]
          by_cases hik : i = k
          · subst hik
            simp
          · rw [if_neg hik]
            simp only [List.getElem_map, List.getElem_range]
            have hk : k ∈ q := by
              have hkr := hperm.mem_iff.mpr (List.mem_range.2 h1)
              rcases List.mem_append.1 hkr with h | h
              · exact h
              · simp only [List.mem_singleton] at h
                exact absurd h.symm hik
            simp [hk]
      rw [runFactoryCalls, if_neg hn, hsplit]
      simp only [rfStep, hre, hok i hi]
      simp only [Bool.false_eq_true, if_false, huz, if_pos, hms, hc]
      simp

/-- Witness for C4: two dependencies settling in reversed order
(index 1 before index 0) still yield one factory invocation with the
exports in declared order. -/
theorem declaration_order_preserved_witness :
    runFactoryCalls (fun i => Except.ok (Value.num (i : Int))) 2 [1, 0] =
      [Except.ok ((List.range 2).map (fun i => Value.num (i : Int)))] :=
  declaration_order_preserved (fun i => Except.ok (Value.num (i : Int))) 2
    (fun i => Value.num (i : Int)) [1, 0] (by decide) (fun i _ => rfl)

/-- Claim C6: a unit located at `a/b/c` declaring the dependency
`../d` resolves it to `a/d`, not `a/b/d`: `define` first strips the
base's trailing segment with the dirname rule of line 56, then `..`
pops `b`, then `d` is appended. -/
theorem dotdot_resolution :
    resolveAgainstLocation "a/b/c" "../d" = "a/d" ∧
    resolveAgainstLocation "a/b/c" "../d" ≠ "a/b/d" := by
  constructor
  · rfl
  · decide

/-- Claim C7 (code bug): the reserved ids are indeed never relativized
(`resolveDep` returns them unchanged) and are never delegated to the
external loader; `exports` settles with a fresh empty object and
`module` with a descriptor carrying the requesting module's id — but
the `require` branch crashes on the unbound identifier `calback`
(pml.js line 207 misspells `callback`), so `require` does not settle
successfully with a loader accessor as the claim states. -/
theorem reserved_ids_behavior :
    resolveDep "app/" "exports" = "exports" ∧
    resolveDep "app/" "require" = "require" ∧
    resolveDep "app/" "module" = "module" ∧
    requireCall [] "exports" "m" = RequireOutcome.settled (Value.obj []) ∧
    requireCall [] "module" "m" = RequireOutcome.settled (Value.obj [("id", "m")]) ∧
    requireCall [] "require" "m" = RequireOutcome.crash "calback is not defined" := by
  refine ⟨rfl, rfl, rfl, rfl, rfl, rfl⟩

/-! ## `define` validation and commit -/

/-- Claim C8: whenever the effective id (explicit or inferred)
contains a backslash, `define` throws the `TypeError` of line 47 and
changes nothing else — the registry and pendings are untouched, and
since the conclusion holds for *every* starting state `sys`, including
states whose registry already contains the id, the backslash check
takes precedence over the already-defined check (line 46 runs before
line 50). -/
theorem backslash_rejected (funcs : Nat → List Value → Value) (sys : Sys)
    (inferredId : String) (args : DefineArgs)
    (hbs : hasBackslash (effectiveId args inferredId) = true) :
    defineCall funcs sys inferredId args =
      { sys with thrown := sys.thrown ++
          [JsErr.typeError "Please use / as module path delimiters"] } := by
  simp [defineCall, hbs]

/-- A factory environment whose every factory returns `99`. -/
def funcs99 : Nat → List Value → Value := fun _ _ => Value.num 99

/-- Witness for C8: an explicit id `a\b` is rejected with the
`TypeError` even though the registry already contains `a\b` (rule 3
precedes rule 4), and the registry is untouched. -/
theorem backslash_rejected_witness :
    defineCall funcs99 { modules := [("a\\b", Value.num 1)], pendings := [], thrown := [] }
      "doc.html" ⟨Value.str "a\\b", Value.undefined, Value.num 2⟩ =
      { modules := [("a\\b", Value.num 1)], pendings := [],
        thrown := [JsErr.typeError "Please use / as module path delimiters"] } :=
  backslash_rejected funcs99 _ "doc.html" _ rfl

/-- Amended claim C2: a second `define` fails with the
already-defined error only when the identifier is already *committed*
to the registry at the moment the second `define` runs; this holds
regardless of payload (`depsArg` and `facArg` are arbitrary). -/
theorem already_defined_rejected (funcs : Nat → List Value → Value) (sys : Sys)
    (inferredId idS : String) (depsArg facArg : Value) (w : Value)
    (hbs : hasBackslash idS = false)
    (hcom : rlookup sys.modules idS = some w) :
    defineCall funcs sys inferredId ⟨Value.str idS, depsArg, facArg⟩ =
      { sys with thrown := sys.thrown ++ [JsErr.alreadyDefined idS] } := by
  simp [defineCall, effectiveId, hbs, hcom]

/-- Witness for the amended C2: `m` is committed, so a second define
of `m` throws the already-defined error whatever its payload. -/
theorem already_defined_rejected_witness :
    defineCall funcs99 { modules := [("m", Value.num 1)], pendings := [], thrown := [] }
      "doc.html" ⟨Value.str "m", Value.undefined, Value.num 2⟩ =
      { modules := [("m", Value.num 1)], pendings := [],
        thrown := [JsErr.alreadyDefined "m"] } :=
  already_defined_rejected funcs99 _ "doc.html" "m" Value.undefined (Value.num 2)
    (Value.num 1) rfl rfl

/-- Counterexample to claim C2 as stated: while the first
`define("m", ["d"], f)` is still resolving its dependency
asynchronously, a second `define("m", 42)` does NOT fail — no error is
thrown — and the registry ends up written twice for `m`: first with
`42`, then overwritten with the first define's factory result `99`
when its dependency finally settles. -/
theorem second_define_during_resolution_not_rejected :
    (defineCall funcs99
        (defineCall funcs99 emptySys "doc1.html"
          ⟨Value.str "m", Value.arr ["d"], Value.func 0⟩)
        "doc2.html" ⟨Value.str "m", Value.num 42, Value.undefined⟩).thrown = [] ∧
    rlookup (defineCall funcs99
        (defineCall funcs99 emptySys "doc1.html"
          ⟨Value.str "m", Value.arr ["d"], Value.func 0⟩)
        "doc2.html" ⟨Value.str "m", Value.num 42, Value.undefined⟩).modules "m" =
      some (Value.num 42) ∧
    rlookup (settleEvent funcs99
        (defineCall funcs99
          (defineCall funcs99 emptySys "doc1.html"
            ⟨Value.str "m", Value.arr ["d"], Value.func 0⟩)
          "doc2.html" ⟨Value.str "m", Value.num 42, Value.undefined⟩)
        0 0 (Except.ok (Value.num 7))).modules "m" = some (Value.num 99) := by
  refine ⟨rfl, rfl, rfl⟩

/-- Amended claim C3: a *truthy* non-callable value `v` is committed
directly as the module's export, skipping dependency resolution;
`define(id, v)` followed by a lookup of `id` returns `v`. (For falsy
`v` the argument-shifting `factory || dependencies || id` of line 33
replaces `v`, see the counterexample.) -/
theorem plain_value_committed (funcs : Nat → List Value → Value) (sys : Sys)
    (inferredId idS : String) (v : Value)
    (hbs : hasBackslash idS = false)
    (habs : rlookup sys.modules idS = none)
    (ht : truthy v = true)
    (hnf : isFunction v = false) :
    rlookup (defineCall funcs sys inferredId
      ⟨Value.str idS, v, Value.undefined⟩).modules idS = some v := by
  have hfac : normFactory ⟨Value.str idS, v, Value.undefined⟩ = v := by
    have h0 : truthy Value.undefined = false := rfl
    simp [normFactory, jsOr, h0, ht]
  simp [defineCall, effectiveId, hbs, habs, hfac, hnf, rlookup]

/-- Witness for the amended C3: `define("m", 42)` then looking up `m`
returns `42`. -/
theorem plain_value_committed_witness :
    rlookup (defineCall funcs99 emptySys "doc.html"
      ⟨Value.str "m", Value.num 42, Value.undefined⟩).modules "m" =
      some (Value.num 42) :=
  plain_value_committed funcs99 emptySys "doc.html" "m" (Value.num 42)
    rfl rfl rfl rfl

/-- Counterexample to claim C3 as stated: for the falsy non-callable
value `0`, `define("m", 0)` does not commit `0`; line 33's
`factory = factory || dependencies || id` skips the falsy `0` and the
string `"m"` is committed instead. -/
theorem falsy_value_not_committed :
    rlookup (defineCall funcs99 emptySys "doc.html"
      ⟨Value.str "m", Value.num 0, Value.undefined⟩).modules "m" =
      some (Value.str "m") ∧
    some (Value.str "m") ≠ some (Value.num 0) := by
  refine ⟨rfl, by decide⟩

/-- Claim C5: the base path for relative-dependency resolution is
derived from the unit's inferred location, never from its explicit id:
whatever explicit id `e` a unit located at `http://x.com/a/b.html`
declares, its dependency `./c.html` is requested as
`http://x.com/a/c.html` (dirname of the inferred location, then
relative resolution). -/
theorem base_from_inferred_location (e : String) (funcs : Nat → List Value → Value)
    (hbs : hasBackslash e = false) :
    (defineCall funcs emptySys "http://x.com/a/b.html"
      ⟨Value.str e, Value.arr ["./c.html"], Value.func 0⟩).pendings.map
        Pending.resolvedDeps = [["http://x.com/a/c.html"]] := by
  have h1 : truthy (Value.func 0) = true := rfl
  have h2 : isFunction (Value.func 0) = true := rfl
  simp [defineCall, effectiveId, hbs, normFactory, normDeps, jsOr, h1, h2,
    emptySys, rlookup]
  rfl

/-- Witness for C5: a unit declaring the unrelated explicit id
`publicname` still resolves `./c.html` against its own location. -/
theorem base_from_inferred_location_witness :
    (defineCall funcs99 emptySys "http://x.com/a/b.html"
      ⟨Value.str "publicname", Value.arr ["./c.html"], Value.func 0⟩).pendings.map
        Pending.resolvedDeps = [["http://x.com/a/c.html"]] :=
  base_from_inferred_location "publicname" funcs99 rfl

/-- Amended claim C9: a non-reserved id absent from the registry is
delegated to the external loader, and when the load completes the
request settles with the export only if the registry then maps the id
to a *truthy* value; it settles with the not-loaded error when the id
is absent — or mapped to a falsy export (see the counterexample). -/
theorem dependency_load_settlement (ρ : Registry) (id moduleId : String)
    (hex : id ≠ "exports") (hrq : id ≠ "require") (hmd : id ≠ "module")
    (habs : rlookup ρ id = none) :
    requireCall ρ id moduleId =
      RequireOutcome.delegated ("components/jquery/dist/" ++ id ++ ".js") ∧
    (∀ (ρ2 : Registry) (v : Value), rlookup ρ2 id = some v → truthy v = true →
      requireAfterLoad ρ2 id moduleId = Except.ok v) ∧
    (∀ (ρ2 : Registry), truthy ((rlookup ρ2 id).getD Value.undefined) = false →
      requireAfterLoad ρ2 id moduleId = Except.error (JsErr.notLoaded id moduleId)) := by
  refine ⟨by simp [requireCall, hex, hrq, hmd, habs], ?_, ?_⟩
  · intro ρ2 v hv ht
    simp [requireAfterLoad, hv, ht]
  · intro ρ2 hf
    simp [requireAfterLoad, hf]

/-- Witness for the amended C9: `x` is delegated to the loader; after
the load it settles with the export when `x` was committed truthy, and
with the not-loaded error when `x` never appeared. -/
theorem dependency_load_settlement_witness :
    requireCall [] "x" "m" =
      RequireOutcome.delegated ("components/jquery/dist/" ++ "x" ++ ".js") ∧
    requireAfterLoad [("x", Value.num 1)] "x" "m" = Except.ok (Value.num 1) ∧
    requireAfterLoad [] "x" "m" = Except.error (JsErr.notLoaded "x" "m") := by
  have h := dependency_load_settlement [] "x" "m" (by decide) (by decide) (by decide) rfl
  exact ⟨h.1, h.2.1 [("x", Value.num 1)] (Value.num 1) rfl rfl, h.2.2 [] rfl⟩

/-- A factory environment whose every factory returns `false` — a
legitimate module export. -/
def funcsFalse : Nat → List Value → Value := fun _ _ => Value.bool false

/-- Counterexample to claim C9 as stated: a zero-dependency define
commits the falsy export `false` for `m`, so `m` *has appeared in the
registry*; yet `requireAfterLoad` reports the not-loaded error, because
line 217 tests `if (_modules[id])` — truthiness of the export — rather
than key presence. -/
theorem falsy_export_reported_not_loaded :
    rlookup (defineCall funcsFalse emptySys "lib/m.js"
      ⟨Value.str "m", Value.arr [], Value.func 0⟩).modules "m" =
      some (Value.bool false) ∧
    requireAfterLoad (defineCall funcsFalse emptySys "lib/m.js"
      ⟨Value.str "m", Value.arr [], Value.func 0⟩).modules "m" "app" =
      Except.error (JsErr.notLoaded "m" "app") :=
  ⟨rfl, rfl⟩

/-- Claim C10: a non-reserved id absent from the registry is loaded
from `components/jquery/dist/<id>.js`, and *every* load the loader is
ever asked to perform uses exactly that hardcoded URL pattern — no
dependency can be loaded from any other location. -/
theorem hardcoded_loader_url (ρ : Registry) (id moduleId : String)
    (hex : id ≠ "exports") (hrq : id ≠ "require") (hmd : id ≠ "module")
    (habs : rlookup ρ id = none) :
    requireCall ρ id moduleId =
      RequireOutcome.delegated ("components/jquery/dist/" ++ id ++ ".js") ∧
    (∀ (ρ2 : Registry) (id2 mid2 url : String),
      requireCall ρ2 id2 mid2 = RequireOutcome.delegated url →
      url = "components/jquery/dist/" ++ id2 ++ ".js") := by
  refine ⟨by simp [requireCall, hex, hrq, hmd, habs], ?_⟩
  intro ρ2 id2 mid2 url h
  by_cases h1 : id2 = "exports"
  · simp [requireCall, h1] at h
  · by_cases h2 : id2 = "require"
    · simp [requireCall, h1, h2] at h
    · by_cases h3 : id2 = "module"
      · simp [requireCall, h1, h2, h3] at h
      · rcases hr : rlookup ρ2 id2 with _ | v
        · simp [requireCall, h1, h2, h3, hr] at h
          exact h.symm
        · simp [requireCall, h1, h2, h3, hr] at h

/-- Witness for C10: the id `x` is delegated to exactly
`components/jquery/dist/x.js`. -/
theorem hardcoded_loader_url_witness :
    requireCall [] "x" "m" =
      RequireOutcome.delegated ("components/jquery/dist/" ++ "x" ++ ".js") ∧
    "components/jquery/dist/x.js" = "components/jquery/dist/" ++ "x" ++ ".js" := by
  have h := hardcoded_loader_url [] "x" "m" (by decide) (by decide) (by decide) rfl
  exact ⟨h.1, h.2 [] "x" "m" "components/jquery/dist/x.js" h.1⟩

end Pml
